import Mathlib

/-! Verification of package `reflection`.

A shallow embedding of the query generator and the summing routines of
`src/reflection/reflection.go`, of the closures `modify`, `safeModify` and
`create` of `src/reflection/reflection_test.go`, and of the parts of Go's
`reflect`, `fmt` and `errors` packages they call.

* A Go value handed over as `interface{}` is a `Value`; `reflect.ValueOf`
  leaves it as it is, and the nil interface value is `Value.Nil`, whose
  reflected kind is `Invalid`.
* A Go call either returns or panics. `Result` keeps the two apart, with a
  third outcome for a model loop that runs out of fuel.
* Go strings are modelled by `String`; the code only concatenates them.
* A Go `error` is `Option GoError`, `none` being the nil error.
* The caller's variables are a `Memory`. A routine that writes takes the memory
  and gives the one it leaves; `modify`, which the test expects to panic, is a
  `Proc`, whose memory is there also after a panic.
-/

namespace Reflection

/-! ## Outcomes of a Go call -/

/-- Outcome of a Go call: a normal return, a run-time panic, or the model loop
running out of fuel. -/
inductive Result (α : Type) where
  | ok (a : α)
  | panic (msg : String)
  | outOfFuel
  deriving DecidableEq

/-- Sequencing of Go calls: a panic (or fuel exhaustion) propagates. -/
def Result.bind {α β : Type} (r : Result α) (f : α → Result β) : Result β :=
  match r with
  | .ok a => f a
  | .panic msg => .panic msg
  | .outOfFuel => .outOfFuel

instance : Monad Result where
  pure := Result.ok
  bind := Result.bind

/-! ## Package `reflect` -/

/-- The kinds of `reflect.Kind`, in the order of the Go declaration. -/
inductive Kind where
  | Invalid | Bool
  | Int | Int8 | Int16 | Int32 | Int64
  | Uint | Uint8 | Uint16 | Uint32 | Uint64 | Uintptr
  | Float32 | Float64 | Complex64 | Complex128
  | Array | Chan | Func | Interface | Map | Pointer | Slice
  | String | Struct | UnsafePointer
  deriving DecidableEq

/-- A Go value as it reaches a function through `interface{}`, and as a field
of a struct. Integer payloads are the mathematical value; floating-point and
complex payloads are kept as raw bits; channels, functions and raw pointers
carry no payload. A struct carries the name of its type (empty for an
anonymous struct type) and its fields in declaration order, each with its
name. `nil` is the nil interface value. -/
inductive Value where
  | nil
  | bool (b : Bool)
  | int (n : Int)
  | int8 (n : Int)
  | int16 (n : Int)
  | int32 (n : Int)
  | int64 (n : Int)
  | uint (n : Nat)
  | uint8 (n : Nat)
  | uint16 (n : Nat)
  | uint32 (n : Nat)
  | uint64 (n : Nat)
  | uintptr (n : Nat)
  | float32 (bits : Nat)
  | float64 (bits : Nat)
  | complex64 (bits : Nat)
  | complex128 (bits : Nat)
  | array (elems : List Value)
  | chan
  | func
  | iface (dynamic : Value)
  | map (entries : List (Value × Value))
  | ptr (elem : Option Value)
  | slice (elems : List Value)
  | str (s : String)
  | struct (typeName : String) (fields : List (String × Value))
  | unsafePointer

/-- A struct field as the model stores it: its name and its value. -/
abbrev Field := String × Value

/-- Go's `reflect.ValueOf`: the reflected value of `q`. A `reflect.Value` is
modelled by the value itself; for the nil interface it is the zero Value. -/
def ValueOf (q : Value) : Value := q

/-- Go's `Value.Kind()`. It never panics: the zero Value has kind `Invalid`. -/
def Value.Kind : Value → Reflection.Kind
  | .nil => .Invalid
  | .bool _ => .Bool
  | .int _ => .Int
  | .int8 _ => .Int8
  | .int16 _ => .Int16
  | .int32 _ => .Int32
  | .int64 _ => .Int64
  | .uint _ => .Uint
  | .uint8 _ => .Uint8
  | .uint16 _ => .Uint16
  | .uint32 _ => .Uint32
  | .uint64 _ => .Uint64
  | .uintptr _ => .Uintptr
  | .float32 _ => .Float32
  | .float64 _ => .Float64
  | .complex64 _ => .Complex64
  | .complex128 _ => .Complex128
  | .array _ => .Array
  | .chan => .Chan
  | .func => .Func
  | .iface _ => .Interface
  | .map _ => .Map
  | .ptr _ => .Pointer
  | .slice _ => .Slice
  | .str _ => .String
  | .struct _ _ => .Struct
  | .unsafePointer => .UnsafePointer

/-- A `reflect.Type`, as far as this package looks at it: the name of the type
within its package (empty for an unnamed type) and its kind. -/
structure RType where
  name : String
  kind : Reflection.Kind
  deriving DecidableEq

/-- The name of the type of a value: the declared name of a struct type, the
predeclared name of a basic type, and the empty name of the unnamed composite
types. Named non-struct types are outside the model. -/
def typeNameOf : Value → String
  | .nil => ""
  | .bool _ => "bool"
  | .int _ => "int"
  | .int8 _ => "int8"
  | .int16 _ => "int16"
  | .int32 _ => "int32"
  | .int64 _ => "int64"
  | .uint _ => "uint"
  | .uint8 _ => "uint8"
  | .uint16 _ => "uint16"
  | .uint32 _ => "uint32"
  | .uint64 _ => "uint64"
  | .uintptr _ => "uintptr"
  | .float32 _ => "float32"
  | .float64 _ => "float64"
  | .complex64 _ => "complex64"
  | .complex128 _ => "complex128"
  | .str _ => "string"
  | .struct typeName _ => typeName
  | .unsafePointer => "Pointer"
  | _ => ""

/-- Go's `reflect.TypeOf`: the dynamic type of `q`, the nil Type for the nil
interface value. -/
def TypeOf (q : Value) : Option RType :=
  match q with
  | .nil => none
  | v => some { name := typeNameOf v, kind := v.Kind }

/-- Go's `Type.Name()`. Calling it on the nil Type is a nil dereference. -/
def RType.Name : Option RType → Result String
  | some t => .ok t.name
  | none => .panic "invalid memory address or nil pointer dereference"

/-- Go's `Value.NumField()`: the number of fields of a struct; it panics on
every other kind. -/
def Value.NumField : Value → Result Nat
  | .struct _ fields => .ok fields.length
  | _ => .panic "reflect: call of reflect.Value.NumField on non-struct Value"

/-- Go's `Value.Field(i)`: the i-th field of a struct; it panics on every other
kind and when `i` is out of range. -/
def Value.Field : Value → Nat → Result Value
  | .struct _ fields, i =>
    match fields.get? i with
    | some f => .ok f.2
    | none => .panic "reflect: Field index out of range"
  | _, _ => .panic "reflect: call of reflect.Value.Field on non-struct Value"

/-- Go's `Value.Int()`: the underlying value as an int64; it panics unless the
kind is Int, Int8, Int16, Int32 or Int64. -/
def Value.Int : Value → Result Int
  | .int n => .ok n
  | .int8 n => .ok n
  | .int16 n => .ok n
  | .int32 n => .ok n
  | .int64 n => .ok n
  | _ => .panic "reflect: call of reflect.Value.Int on non-int Value"

/-- Go's `Value.String()`: the underlying string of a String value. On any
other kind it does not panic and returns a description of the type (given here
without the package qualifier). -/
def Value.String : Value → String
  | .str s => s
  | .nil => "<invalid Value>"
  | v => "<" ++ typeNameOf v ++ " Value>"

/-! ## Package `errors` -/

/-- The value behind a Go `error` made by `errors.New`: its only content is
the message. -/
structure GoError where
  msg : String
  deriving DecidableEq

/-- Go's `errors.New`. -/
def errors.New (text : String) : GoError := { msg := text }

/-! ## Package `fmt` -/

/-- The byte `'0' + d` of a decimal digit `d`. -/
def digitByte (d : Nat) : Char := Char.ofNat (48 + d)

/-- The digit loop of `fmt`: `for u >= 10 { next := u / 10; write '0'+u-next*10;
u = next }`, then the last digit. Digits are written from the right end of the
buffer, so the later ones come first in the output. `fuel` bounds the number
of passes. -/
def fmtDigits : Nat → Nat → List Char
  | 0, u => [digitByte (u % 10)]
  | fuel + 1, u =>
    if u ≥ 10 then fmtDigits fuel (u / 10) ++ [digitByte (u - (u / 10) * 10)]
    else [digitByte u]

/-- What `%d` writes for an int64 operand (`fmtInteger` with base 10, signed,
no flags): the operand is converted to uint64, a negative one is negated
(modulo 2^64), the digits are written, then the sign. The buffer of `fmt` has
room for every uint64; twenty passes cover its twenty digits. -/
def fmtInteger (v : Int) : String :=
  let u : Nat := (v % 2 ^ 64).toNat
  let negative : Bool := decide (u ≥ 2 ^ 63)
  let u : Nat := if negative then (2 ^ 64 - u) % 2 ^ 64 else u
  let digits := fmtDigits 20 u
  String.mk (if negative then '-' :: digits else digits)

/-- An operand of `Sprintf`: a string or an int64. -/
inductive Arg where
  | str (s : String)
  | int64 (n : Int)

/-- How `fmt` shows an operand inside an error marker: `type=value`. -/
def Arg.describe : Arg → String
  | .str s => "string=" ++ s
  | .int64 n => "int64=" ++ fmtInteger n

/-- The formatting pass of `Sprintf` over the format and the remaining
operands. Modelled: plain text, `%%`, `%s` with a string operand, `%d` with an
int64 operand (no flags, width or precision), and the error markers of `fmt`
for a missing operand, a lone `%`, a verb that does not fit its operand and
operands left over. -/
def doPrintf : List Char → List Arg → String
  | [], [] => ""
  | [], a :: rest => "%!(EXTRA " ++ ", ".intercalate ((a :: rest).map Arg.describe) ++ ")"
  | c :: format, args =>
    if c = '%' then
      match format, args with
      | [], _ => "%!(NOVERB)"
      | verb :: format, [] =>
        if verb = '%' then "%" ++ doPrintf format []
        else "%!" ++ String.singleton verb ++ "(MISSING)" ++ doPrintf format []
      | verb :: format, a :: args =>
        if verb = '%' then "%" ++ doPrintf format (a :: args)
        else
          match verb, a with
          | 's', .str s => s ++ doPrintf format args
          | 'd', .int64 n => fmtInteger n ++ doPrintf format args
          | _, _ => "%!" ++ String.singleton verb ++ "(" ++ a.describe ++ ")" ++ doPrintf format args
    else String.singleton c ++ doPrintf format args

/-- Go's `fmt.Sprintf`. -/
def fmt.Sprintf (format : String) (args : List Arg) : String :=
  doPrintf format.toList args

/-! ## `CreateQuery` -/

/-- How a pass of the field loop ends: the function returns, or the loop goes
on with the statement built so far. -/
inductive Flow where
  | returned (query : String) (err : Option GoError)
  | next (query : String)

/-- The body of the loop of `CreateQuery` at index `i`: the switch on the kind
of field `i`. -/
def loopBody (v : Value) (i : Nat) (query : String) : Result Flow := do
  let f ← v.Field i
  match f.Kind with
  | .Int =>
    if i = 0 then
      let n ← (← v.Field i).Int
      pure (.next (fmt.Sprintf "%s%d" [.str query, .int64 n]))
    else
      let n ← (← v.Field i).Int
      pure (.next (fmt.Sprintf "%s, %d" [.str query, .int64 n]))
  | .String =>
    if i = 0 then
      let s := (← v.Field i).String
      pure (.next (fmt.Sprintf "%s\"%s\"" [.str query, .str s]))
    else
      let s := (← v.Field i).String
      pure (.next (fmt.Sprintf "%s, \"%s\"" [.str query, .str s]))
  | _ => pure (.returned "" (some (errors.New "unsupported type")))

/-- The loop `for i := 0; i < v.NumField(); i++ { ... }` of `CreateQuery`,
entered at index `i` with the statement built so far. Each pass evaluates the
condition, then the body. `fuel` bounds the number of condition checks. -/
def fieldLoop (v : Value) : Nat → Nat → String → Result Flow
  | 0, _, _ => .outOfFuel
  | fuel + 1, i, query => do
    let n ← v.NumField
    if i < n then
      match ← loopBody v i query with
      | .returned s err => pure (.returned s err)
      | .next query => fieldLoop v fuel (i + 1) query
    else pure (.next query)

/-- The number of condition checks the field loop of `CreateQuery` makes at
most on `v`: one per field and the last, failing one. -/
def loopFuel : Value → Nat
  | .struct _ fields => fields.length + 1
  | _ => 1

/-- Go's `CreateQuery(q interface{}) (string, error)`. -/
def CreateQuery (q : Value) : Result (String × Option GoError) :=
  if (ValueOf q).Kind = Reflection.Kind.Struct then do
    let t ← RType.Name (TypeOf q)
    let query := fmt.Sprintf "insert into %s values(" [.str t]
    let v := ValueOf q
    match ← fieldLoop v (loopFuel v) 0 query with
    | .returned s err => pure (s, err)
    | .next query =>
      let query := fmt.Sprintf "%s)" [.str query]
      pure (query, none)
  else
    pure ("", some (errors.New "unsupported type"))

/-! ## The two record types of the package -/

/-- A `Person{Name, Age}` value. -/
def Person (name : String) (age : Int) : Value :=
  .struct "Person" [("Name", .str name), ("Age", .int age)]

/-- An `Employee{ID, Name, Position, Country, Salary}` value. -/
def Employee (id : Int) (name position country : String) (salary : Int) : Value :=
  .struct "Employee"
    [("ID", .int id), ("Name", .str name), ("Position", .str position),
     ("Country", .str country), ("Salary", .int salary)]

/-! ## The statement as the specification words it -/

/-- A field is supported when its kind is Int or String. -/
def Supported (f : Value) : Prop := f.Kind = Reflection.Kind.Int ∨ f.Kind = Reflection.Kind.String

instance (f : Value) : Decidable (Supported f) := by
  unfold Supported; exact inferInstance

/-- The literal of one field: an Int field as `%d` writes it, a String field
between two double quotes. -/
def specLiteral : Value → String
  | .int n => fmtInteger n
  | .str s => "\"" ++ s ++ "\""
  | _ => ""

/-- The statement for a record: the literals of all its fields, in declaration
order, joined with `", "` and wrapped as `insert into <name> values(...)`. -/
def specStatement (typeName : String) (fields : List Field) : String :=
  "insert into " ++ typeName ++ " values("
    ++ ", ".intercalate (fields.map fun f => specLiteral f.2) ++ ")"

/-- The separator the loop writes before the literal of field `i`. -/
def sepAt (i : Nat) : String := if i = 0 then "" else ", "

/-- The field loop read as a pass over the list of the fields still to come:
what it makes of the statement built so far, entered at index `i`. -/
def renderFrom : Nat → String → List Field → Flow
  | _, query, [] => .next query
  | i, query, (_, .int n) :: rest =>
    renderFrom (i + 1) (query ++ sepAt i ++ fmtInteger n) rest
  | i, query, (_, .str s) :: rest =>
    renderFrom (i + 1) (query ++ sepAt i ++ "\"" ++ s ++ "\"") rest
  | _, _, _ :: _ => .returned "" (some (errors.New "unsupported type"))

/-- The text the loop appends for the fields still to come, entered at index
`i`: every literal with its separator in front. -/
def joinFrom : Nat → List Field → String
  | _, [] => ""
  | i, f :: rest => sepAt i ++ specLiteral f.2 ++ joinFrom (i + 1) rest

/-- The integer-family kinds other than the platform `int`. -/
def isSizedIntKind (k : Reflection.Kind) : Bool :=
  match k with
  | .Int8 | .Int16 | .Int32 | .Int64 => true
  | .Uint | .Uint8 | .Uint16 | .Uint32 | .Uint64 | .Uintptr => true
  | _ => false

/-! ## Decimal literals -/

/-- The values an int64 can hold. -/
def isInt64 (n : Int) : Prop := -2 ^ 63 ≤ n ∧ n < 2 ^ 63

instance (n : Int) : Decidable (isInt64 n) := by
  unfold isInt64; exact inferInstance

/-- The number a sequence of decimal digits denotes, most significant digit
first. -/
def digitsValue (ds : List Char) : Nat :=
  ds.foldl (fun acc c => 10 * acc + (c.toNat - '0'.toNat)) 0

/-- Reading a decimal integer: an optional `-`, then one or more decimal
digits and nothing else. -/
def parseDecimal (s : String) : Option Int :=
  let negative : Bool := s.data.head? == some '-'
  let ds := if negative then s.data.tail else s.data
  if !ds.isEmpty && ds.all Char.isDigit then
    some (if negative then -(digitsValue ds : Int) else (digitsValue ds : Int))
  else none

/-! ## Variables, pointers and settable values -/

/-- The variables of the caller, by address: the value each one holds. -/
abbrev Memory := List Value

/-- What an `interface{}` argument holds when the callee may write through it:
a copy of a value, or a pointer to a variable of the memory. A pointer kept by
content (`Value.ptr`) inside `copy` points to a variable outside the memory. -/
inductive Data where
  | copy (v : Value)
  | ref (addr : Nat)

/-- A `reflect.Value` together with what it refers to. `of d` is
`reflect.ValueOf(d)`, which is not addressable. `var addr` is the variable a
pointer into the memory points to, and `detached v` the variable behind a
pointer kept by content: both are addressable and settable. A `var` whose
address holds no variable stands for the zero Value that `Elem` gives on a nil
pointer. -/
inductive RValue where
  | of (d : Data)
  | var (addr : Nat)
  | detached (v : Value)

/-- Go's `reflect.ValueOf` on an argument the callee may write through. -/
def Data.ValueOf (d : Data) : RValue := .of d

/-- Go's `reflect.TypeOf` on an argument the callee may write through: the nil
Type for the nil interface, an unnamed pointer type for a pointer. -/
def Data.TypeOf : Data → Option RType
  | .copy v => Reflection.TypeOf v
  | .ref _ => some { name := "", kind := Reflection.Kind.Pointer }

/-- Go's `Type.Kind()`. Calling it on the nil Type is a nil dereference. -/
def RType.Kind : Option RType → Result Reflection.Kind
  | some t => .ok t.kind
  | none => .panic "invalid memory address or nil pointer dereference"

/-- The value a `reflect.Value` currently holds, `nil` for the zero Value. A
pointer into the memory has no value by content. -/
def RValue.load (m : Memory) : RValue → Option Value
  | .of (.copy v) => some v
  | .of (.ref _) => none
  | .var addr => some ((m.get? addr).getD .nil)
  | .detached v => some v

/-- Go's `Kind.String()`: the name of a kind. -/
def kindString : Reflection.Kind → String
  | .Invalid => "invalid"
  | .Bool => "bool"
  | .Int => "int"
  | .Int8 => "int8"
  | .Int16 => "int16"
  | .Int32 => "int32"
  | .Int64 => "int64"
  | .Uint => "uint"
  | .Uint8 => "uint8"
  | .Uint16 => "uint16"
  | .Uint32 => "uint32"
  | .Uint64 => "uint64"
  | .Uintptr => "uintptr"
  | .Float32 => "float32"
  | .Float64 => "float64"
  | .Complex64 => "complex64"
  | .Complex128 => "complex128"
  | .Array => "array"
  | .Chan => "chan"
  | .Func => "func"
  | .Interface => "interface"
  | .Map => "map"
  | .Pointer => "ptr"
  | .Slice => "slice"
  | .String => "string"
  | .Struct => "struct"
  | .UnsafePointer => "unsafe.Pointer"

/-- The text of the `*reflect.ValueError` a method of `reflect.Value` panics
with when it is called on a value of kind `k` it does not accept. -/
def valueErrorText (method : String) (k : Reflection.Kind) : String :=
  if k = Reflection.Kind.Invalid then "reflect: call of " ++ method ++ " on zero Value"
  else "reflect: call of " ++ method ++ " on " ++ kindString k ++ " Value"

/-- Go's `Value.Elem()`: the variable a pointer points to (the zero Value for
a nil pointer), the value an interface holds. On every other kind it panics
with a `*reflect.ValueError` that names the kind. -/
def RValue.Elem (m : Memory) (v : RValue) : Result RValue :=
  match v with
  | .of (.ref addr) => .ok (.var addr)
  | _ =>
    match v.load m with
    | some (.ptr (some pointee)) => .ok (.detached pointee)
    | some (.ptr none) => .ok (.of (.copy .nil))
    | some (.iface dynamic) => .ok (.of (.copy dynamic))
    | some x => .panic (valueErrorText "reflect.Value.Elem" x.Kind)
    | none => .panic (valueErrorText "reflect.Value.Elem" Reflection.Kind.Pointer)

/-- Go's `Value.Int()` on a `reflect.Value` that may refer to a variable. -/
def RValue.Int (m : Memory) (v : RValue) : Result Int :=
  match v.load m with
  | some x => x.Int
  | none => .panic "reflect: call of reflect.Value.Int on ptr Value"

/-- Whether `Set` accepts `x` for a variable that holds `old`: `x` is valid and
its type is the type of the variable. Types are told apart by name and kind;
variables of interface type are outside the model. -/
def assignable (x old : Value) : Bool :=
  decide (x.Kind ≠ Reflection.Kind.Invalid) && decide (Reflection.TypeOf x = Reflection.TypeOf old)

/-- Go's `Value.Set(x)`: it assigns `x` to the variable the receiver refers to.
It panics when the receiver is not addressable, when it is the zero Value, and
when `x` is not assignable to the type of the variable. Setting a variable
outside the memory leaves the memory as it is. -/
def RValue.Set (target : RValue) (x : Value) (m : Memory) : Result Memory :=
  match target with
  | .of _ => .panic "reflect: reflect.Value.Set using unaddressable value"
  | .var addr =>
    match m.get? addr with
    | none => .panic "reflect: call of reflect.Value.Set on zero Value"
    | some old =>
      if assignable x old then .ok (m.set addr x)
      else .panic "reflect.Set: value is not assignable to the type of the variable"
  | .detached old =>
    if assignable x old then .ok m
    else .panic "reflect.Set: value is not assignable to the type of the variable"

mutual
/-- The zero value of the type of a value. -/
def zeroValue : Value → Value
  | .nil => .nil
  | .bool _ => .bool false
  | .int _ => .int 0
  | .int8 _ => .int8 0
  | .int16 _ => .int16 0
  | .int32 _ => .int32 0
  | .int64 _ => .int64 0
  | .uint _ => .uint 0
  | .uint8 _ => .uint8 0
  | .uint16 _ => .uint16 0
  | .uint32 _ => .uint32 0
  | .uint64 _ => .uint64 0
  | .uintptr _ => .uintptr 0
  | .float32 _ => .float32 0
  | .float64 _ => .float64 0
  | .complex64 _ => .complex64 0
  | .complex128 _ => .complex128 0
  | .array elems => .array (zeroValues elems)
  | .chan => .chan
  | .func => .func
  | .iface _ => .iface .nil
  | .map _ => .map []
  | .ptr _ => .ptr none
  | .slice _ => .slice []
  | .str _ => .str ""
  | .struct typeName fields => .struct typeName (zeroFields fields)
  | .unsafePointer => .unsafePointer
/-- The zero values of the elements of an array. -/
def zeroValues : List Value → List Value
  | [] => []
  | v :: rest => zeroValue v :: zeroValues rest
/-- The zero values of the fields of a struct. -/
def zeroFields : List (String × Value) → List (String × Value)
  | [] => []
  | (name, v) :: rest => (name, zeroValue v) :: zeroFields rest
end

/-- A type as `reflect.New` needs it: its descriptor and its zero value. -/
structure FullType where
  desc : RType
  zero : Value

/-- Go's `Value.Type()`; it panics on the zero Value. -/
def RValue.Type (m : Memory) (v : RValue) : Result FullType :=
  match v with
  | .of (.ref _) =>
    .ok { desc := { name := "", kind := Reflection.Kind.Pointer }, zero := .ptr none }
  | _ =>
    match v.load m with
    | some x =>
      match Reflection.TypeOf x with
      | some t => .ok { desc := t, zero := zeroValue x }
      | none => .panic "reflect: call of reflect.Value.Type on zero Value"
    | none => .panic "reflect: call of reflect.Value.Type on zero Value"

/-- Go's `reflect.New(typ)`: a pointer to a new variable that holds the zero
value of `typ`. The new variable takes the next free address. -/
def New (typ : FullType) (m : Memory) : RValue × Memory :=
  (.of (.ref m.length), m ++ [typ.zero])

/-- Go's `Value.Interface()`: the current value as an `interface{}`. -/
def RValue.Interface (m : Memory) (v : RValue) : Result Data :=
  match v with
  | .of d => .ok d
  | _ =>
    match v.load m with
    | some x => .ok (.copy x)
    | none => .panic "reflect: call of reflect.Value.Interface on zero Value"

/-! ## The routines of the package and of its test -/

/-- The int64 that a mathematical integer wraps around to. -/
def wrapInt64 (x : Int) : Int := (x + 2 ^ 63) % 2 ^ 64 - 2 ^ 63

/-- Go's `SumTwo(num *int64)`: `*num += 2`. The pointer is the address of an
int64 variable; dereferencing a pointer to no variable panics. -/
def SumTwo (num : Nat) (m : Memory) : Result Memory :=
  match m.get? num with
  | some (.int64 n) => .ok (m.set num (.int64 (wrapInt64 (n + 2))))
  | _ => .panic "invalid memory address or nil pointer dereference"

/-- Go's `SumTwoWithReflection(num interface{})`. -/
def SumTwoWithReflection (num : Data) (m : Memory) : Result Memory := do
  let n ← (Data.ValueOf num).Elem m
  let nInt ← n.Int m
  n.Set (ValueOf (.int64 (wrapInt64 (nInt + 2)))) m

/-- A Go call that may write to the caller's variables and may panic: from
the memory it is entered with, the memory it leaves and its outcome. The
memory is there also when the call panics: what was written before a panic
stays written. -/
def Proc (α : Type) : Type := Memory → Memory × Result α

/-- Sequencing of calls that may write: the second call starts from the memory
the first one left; after a panic nothing more runs. -/
def Proc.bind {α β : Type} (p : Proc α) (f : α → Proc β) : Proc β := fun m =>
  match p m with
  | (m', .ok a) => f a m'
  | (m', .panic msg) => (m', .panic msg)
  | (m', .outOfFuel) => (m', .outOfFuel)

instance : Monad Proc where
  pure := fun a m => (m, .ok a)
  bind := Proc.bind

/-- A reflect call that only reads the memory. -/
def Proc.reading {α : Type} (f : Memory → Result α) : Proc α := fun m => (m, f m)

/-- A reflect call that writes, `Value.Set`: when it returns, the memory is
the one it gives; when it panics, it has written nothing. -/
def Proc.writing (f : Memory → Result Memory) : Proc Unit := fun m =>
  match f m with
  | .ok m' => (m', .ok ())
  | .panic msg => (m, .panic msg)
  | .outOfFuel => (m, .outOfFuel)

/-- The closure `modify` of `Test_SetNewValue`, with the memory it leaves
behind whether it returns or panics. -/
def modify (data : Data) : Proc Unit := do
  let v := Data.ValueOf data
  let elem ← Proc.reading fun m => v.Elem m
  Proc.writing fun m => elem.Set (ValueOf (Person "Will" 54)) m

/-- The closure `safeModify` of `Test_SetNewValue`. -/
def safeModify (data : Data) (m : Memory) : Result Memory := do
  let v := Data.ValueOf data
  if (← RType.Kind (Data.TypeOf data)) = Reflection.Kind.Pointer then
    let elem ← v.Elem m
    elem.Set (ValueOf (Person "Will" 54)) m
  else
    pure m

/-- The closure `create` of `Test_MakeNewInstance`: the pointer it returns and
the memory it leaves. -/
def create (pointer : Data) (m : Memory) : Result (Data × Memory) := do
  let dataElem ← (Data.ValueOf pointer).Elem m
  let (newPointer, m) := New (← dataElem.Type m) m
  let m ← (← newPointer.Elem m).Set (ValueOf (Person "Will" 54)) m
  let r ← newPointer.Interface m
  pure (r, m)

/-! ## Records that can be read back -/

/-- The shape of a record: the names and kinds of its fields, in order. -/
def shapeOf (fields : List Field) : List (String × Reflection.Kind) :=
  fields.map fun f => (f.1, f.2.Kind)

/-- A value that is not a string holding a double-quote character. -/
def quoteFree : Value → Bool
  | .str s => !s.data.contains '"'
  | _ => true

/-- A value that is not an `int` outside the range of int64. -/
def intInRange : Value → Bool
  | .int n => decide (isInt64 n)
  | _ => true

/-! ## Lemmas: `Result` and `Sprintf` -/

@[simp] theorem Result.pure_def {α : Type} (a : α) : (pure a : Result α) = Result.ok a := rfl

@[simp] theorem Result.ok_bind {α β : Type} (a : α) (f : α → Result β) :
    (Result.ok a >>= f) = f a := rfl

@[simp] theorem Result.panic_bind {α β : Type} (msg : String) (f : α → Result β) :
    ((Result.panic msg : Result α) >>= f) = Result.panic msg := rfl

theorem Sprintf_head (t : String) :
    fmt.Sprintf "insert into %s values(" [.str t] = "insert into " ++ t ++ " values(" := by
  apply String.ext
  simp [fmt.Sprintf, doPrintf, String.data_append]

theorem Sprintf_int_first (query : String) (n : Int) :
    fmt.Sprintf "%s%d" [.str query, .int64 n] = query ++ fmtInteger n := by
  apply String.ext
  simp [fmt.Sprintf, doPrintf, String.data_append]

theorem Sprintf_int_next (query : String) (n : Int) :
    fmt.Sprintf "%s, %d" [.str query, .int64 n] = query ++ ", " ++ fmtInteger n := by
  apply String.ext
  simp [fmt.Sprintf, doPrintf, String.data_append]

theorem Sprintf_str_first (query s : String) :
    fmt.Sprintf "%s\"%s\"" [.str query, .str s] = query ++ "\"" ++ s ++ "\"" := by
  apply String.ext
  simp [fmt.Sprintf, doPrintf, String.data_append]

theorem Sprintf_str_next (query s : String) :
    fmt.Sprintf "%s, \"%s\"" [.str query, .str s] = query ++ ", " ++ "\"" ++ s ++ "\"" := by
  apply String.ext
  simp [fmt.Sprintf, doPrintf, String.data_append]

theorem Sprintf_close (query : String) :
    fmt.Sprintf "%s)" [.str query] = query ++ ")" := by
  apply String.ext
  simp [fmt.Sprintf, doPrintf, String.data_append]

/-! ## Lemmas: the field loop -/

theorem Field_append (T : String) (pre : List Field) (f : Field) (rest : List Field) :
    (Value.struct T (pre ++ f :: rest)).Field pre.length = .ok f.2 := by
  have h : (pre ++ f :: rest).get? pre.length = some f := by
    induction pre with
    | nil => rfl
    | cons a pre ih => simpa using ih
  simp only [Value.Field, h]

/-- One pass of the loop body on a field list split at the index. -/
theorem loopBody_append (T : String) (pre : List Field) (f : Field) (rest : List Field)
    (query : String) :
    loopBody (.struct T (pre ++ f :: rest)) pre.length query
      = .ok (match f.2 with
          | .int n => .next (query ++ sepAt pre.length ++ fmtInteger n)
          | .str s => .next (query ++ sepAt pre.length ++ "\"" ++ s ++ "\"")
          | _ => .returned "" (some (errors.New "unsupported type"))) := by
  obtain ⟨name, val⟩ := f
  unfold loopBody
  rw [Field_append]
  cases val <;>
    simp [Value.Kind, Value.Int, Value.String, sepAt, Sprintf_int_first, Sprintf_int_next,
      Sprintf_str_first, Sprintf_str_next]
  all_goals split <;> simp [String.append_empty]

/-- The field loop, entered at the index where `post` starts, does what
`renderFrom` says, provided the fuel covers one check per field of `post` and
the last one: it neither panics nor runs out of fuel. -/
theorem fieldLoop_eq (T : String) (post : List Field) :
    ∀ (pre : List Field) (fuel : Nat) (query : String), post.length < fuel →
      fieldLoop (.struct T (pre ++ post)) fuel pre.length query
        = .ok (renderFrom pre.length query post) := by
  induction post with
  | nil =>
    intro pre fuel query h
    obtain ⟨k, rfl⟩ : ∃ k, fuel = k + 1 := ⟨fuel - 1, by simp at h; omega⟩
    simp [fieldLoop, Value.NumField, renderFrom]
  | cons f rest ih =>
    intro pre fuel query h
    obtain ⟨k, rfl⟩ : ∃ k, fuel = k + 1 := ⟨fuel - 1, by omega⟩
    have hk : rest.length < k := by simpa using h
    have hsplit : pre ++ f :: rest = (pre ++ [f]) ++ rest := by simp
    have ih1 := fun query => ih (pre ++ [f]) k query hk
    simp only [List.length_append, List.length_singleton, ← hsplit] at ih1
    obtain ⟨name, val⟩ := f
    unfold fieldLoop
    simp only [Value.NumField, Result.ok_bind, List.length_append, List.length_cons]
    rw [if_pos (by omega), loopBody_append]
    cases val <;> simp [renderFrom, ih1]

/-- What `CreateQuery` returns for a struct, in terms of the pass over its
fields: it never panics and never runs out of fuel. -/
theorem CreateQuery_struct (T : String) (fields : List Field) :
    CreateQuery (.struct T fields)
      = .ok (match renderFrom 0 ("insert into " ++ T ++ " values(") fields with
          | .returned s err => (s, err)
          | .next query => (query ++ ")", none)) := by
  have h := fieldLoop_eq T fields [] (fields.length + 1)
    ("insert into " ++ T ++ " values(") (Nat.lt_succ_self _)
  simp only [List.nil_append, List.length_nil] at h
  simp only [CreateQuery, ValueOf, Value.Kind, if_true, TypeOf, RType.Name, typeNameOf,
    loopFuel, Result.ok_bind, Sprintf_head, h]
  cases renderFrom 0 ("insert into " ++ T ++ " values(") fields <;>
    simp [Sprintf_close]

/-- What `CreateQuery` returns for a value that is not a struct. -/
theorem CreateQuery_not_struct (q : Value) (h : q.Kind ≠ Reflection.Kind.Struct) :
    CreateQuery q = .ok ("", some (errors.New "unsupported type")) := by
  simp [CreateQuery, ValueOf, h]

/-! ## Lemmas: records of supported fields -/

theorem supported_cases (v : Value) (h : Supported v) :
    (∃ n, v = .int n) ∨ (∃ s, v = .str s) := by
  cases v <;> simp [Supported, Value.Kind] at h ⊢

theorem renderFrom_supported (fields : List Field) :
    ∀ (i : Nat) (query : String), (∀ f ∈ fields, Supported f.2) →
      renderFrom i query fields = .next (query ++ joinFrom i fields) := by
  induction fields with
  | nil => intro i query _; simp [renderFrom, joinFrom]
  | cons f rest ih =>
    intro i query h
    have hrest : ∀ g ∈ rest, Supported g.2 := fun g hg => h g (List.mem_cons_of_mem _ hg)
    obtain ⟨name, val⟩ := f
    rcases supported_cases val (h (name, val) (List.mem_cons_self _ _)) with ⟨n, rfl⟩ | ⟨s, rfl⟩
    · simp [renderFrom, joinFrom, specLiteral, ih _ _ hrest, String.append_assoc]
    · simp [renderFrom, joinFrom, specLiteral, ih _ _ hrest, String.append_assoc]

theorem intercalate_go_eq (rest : List Field) :
    ∀ (acc : String) (i : Nat),
      String.intercalate.go acc ", " (rest.map fun f => specLiteral f.2)
        = acc ++ joinFrom (i + 1) rest := by
  induction rest with
  | nil => intro acc i; simp [String.intercalate.go, joinFrom]
  | cons f rest ih =>
    intro acc i
    simp [String.intercalate.go, joinFrom, sepAt, ih _ (i + 1), String.append_assoc]

theorem joinFrom_zero (fields : List Field) :
    joinFrom 0 fields = ", ".intercalate (fields.map fun f => specLiteral f.2) := by
  cases fields with
  | nil => rfl
  | cons f rest =>
    simp [joinFrom, sepAt, String.intercalate, intercalate_go_eq rest _ 0]

/-! ## Lemmas: records with an unsupported field, and the shape of the result -/

theorem renderFrom_unsupported (fields : List Field) :
    ∀ (i : Nat) (query : String), (∃ f ∈ fields, ¬ Supported f.2) →
      renderFrom i query fields = .returned "" (some (errors.New "unsupported type")) := by
  induction fields with
  | nil => intro i query h; obtain ⟨f, hf, _⟩ := h; cases hf
  | cons f rest ih =>
    intro i query h
    obtain ⟨name, val⟩ := f
    by_cases hs : Supported val
    · have hrest : ∃ g ∈ rest, ¬ Supported g.2 := by
        obtain ⟨g, hg, hng⟩ := h
        rcases List.mem_cons.mp hg with rfl | hg
        · exact absurd hs hng
        · exact ⟨g, hg, hng⟩
      rcases supported_cases val hs with ⟨n, rfl⟩ | ⟨s, rfl⟩
      · simp [renderFrom, ih _ _ hrest]
      · simp [renderFrom, ih _ _ hrest]
    · cases val <;> simp [Supported, Value.Kind] at hs <;> simp [renderFrom]

theorem digitByte_isDigit (d : Nat) (h : d < 10) : (digitByte d).isDigit = true := by
  interval_cases d <;> decide

theorem digitByte_value (d : Nat) (h : d < 10) : (digitByte d).toNat - '0'.toNat = d := by
  interval_cases d <;> decide

theorem digitByte_ne_zero (d : Nat) (h : d < 10) (hpos : 0 < d) : digitByte d ≠ '0' := by
  interval_cases d <;> decide

theorem digitByte_ne_minus (d : Nat) (h : d < 10) : digitByte d ≠ '-' := by
  interval_cases d <;> decide

theorem fmtDigits_ne_nil (fuel u : Nat) : fmtDigits fuel u ≠ [] := by
  cases fuel with
  | zero => simp [fmtDigits]
  | succ fuel => unfold fmtDigits; split <;> simp

theorem fmtDigits_isDigit (fuel : Nat) :
    ∀ (u : Nat), ∀ c ∈ fmtDigits fuel u, c.isDigit = true := by
  induction fuel with
  | zero =>
    intro u c hc
    simp only [fmtDigits, List.mem_singleton] at hc
    subst hc
    exact digitByte_isDigit _ (Nat.mod_lt _ (by decide))
  | succ fuel ih =>
    intro u c hc
    unfold fmtDigits at hc
    split at hc
    · rcases List.mem_append.mp hc with hc | hc
      · exact ih _ c hc
      · simp only [List.mem_singleton] at hc
        subst hc
        exact digitByte_isDigit _ (by omega)
    · simp only [List.mem_singleton] at hc
      subst hc
      exact digitByte_isDigit _ (by omega)

theorem digitsValue_snoc (ds : List Char) (c : Char) :
    digitsValue (ds ++ [c]) = 10 * digitsValue ds + (c.toNat - '0'.toNat) := by
  simp [digitsValue, List.foldl_append]

theorem digitsValue_single (c : Char) : digitsValue [c] = c.toNat - '0'.toNat := by
  simp [digitsValue]

/-- With enough fuel the digit loop writes digits that denote its operand. -/
theorem fmtDigits_value (fuel : Nat) :
    ∀ (u : Nat), u < 10 ^ (fuel + 1) → digitsValue (fmtDigits fuel u) = u := by
  induction fuel with
  | zero =>
    intro u hu
    have hu10 : u < 10 := by simpa using hu
    simp only [fmtDigits, digitsValue_single]
    rw [digitByte_value _ (Nat.mod_lt _ (by decide))]
    omega
  | succ fuel ih =>
    intro u hu
    unfold fmtDigits
    split
    · have hdiv : u / 10 < 10 ^ (fuel + 1) := by
        apply Nat.div_lt_of_lt_mul
        rw [pow_succ] at hu
        omega
      rw [digitsValue_snoc, ih _ hdiv, digitByte_value _ (by omega)]
      omega
    · rw [digitsValue_single, digitByte_value _ (by omega)]

/-- With enough fuel the digit loop writes no leading zero: the single digit
`0` for zero, and a first digit other than `0` for every other operand. -/
theorem fmtDigits_head (fuel : Nat) :
    ∀ (u : Nat), u < 10 ^ (fuel + 1) →
      (u = 0 → fmtDigits fuel u = ['0']) ∧ (0 < u → (fmtDigits fuel u).head? ≠ some '0') := by
  induction fuel with
  | zero =>
    intro u hu
    have hu10 : u < 10 := by simpa using hu
    refine ⟨fun h => by subst h; rfl, fun hpos => ?_⟩
    simp only [fmtDigits, List.head?_cons, ne_eq, Option.some.injEq]
    rw [Nat.mod_eq_of_lt hu10]
    exact digitByte_ne_zero u hu10 hpos
  | succ fuel ih =>
    intro u hu
    refine ⟨fun h => by subst h; rfl, fun hpos => ?_⟩
    unfold fmtDigits
    split
    · have hdiv : u / 10 < 10 ^ (fuel + 1) := by
        apply Nat.div_lt_of_lt_mul
        rw [pow_succ] at hu
        omega
      have hne := fmtDigits_ne_nil fuel (u / 10)
      have hhead := (ih _ hdiv).2 (by omega)
      cases hds : fmtDigits fuel (u / 10) with
      | nil => exact absurd hds hne
      | cons d ds => rw [hds] at hhead; simpa using hhead
    · simp only [List.head?_cons, ne_eq, Option.some.injEq]
      exact digitByte_ne_zero u (by omega) hpos

/-- On an int64, `%d` writes a `-` exactly for a negative operand, then the
digits of the absolute value. -/
theorem fmtInteger_data (n : Int) (h : isInt64 n) :
    (fmtInteger n).data = (if n < 0 then ['-'] else []) ++ fmtDigits 20 n.natAbs := by
  obtain ⟨hlo, hhi⟩ := h
  unfold fmtInteger
  by_cases hneg : n < 0
  · have h1 : (n % 2 ^ 64).toNat ≥ 2 ^ 63 := by omega
    have h2 : (2 ^ 64 - (n % 2 ^ 64).toNat) % 2 ^ 64 = n.natAbs := by omega
    norm_num at h1 h2
    simp [h1, h2, hneg]
  · have h1 : ¬ (n % 2 ^ 64).toNat ≥ 2 ^ 63 := by omega
    have h2 : (n % 2 ^ 64).toNat = n.natAbs := by omega
    have h3 : ¬ 9223372036854775808 ≤ n.natAbs := by omega
    norm_num at h1 h2
    simp [h2, h3, hneg]

/-- Reading back what `%d` wrote for an int64 gives the operand. -/
theorem parseDecimal_fmtInteger (n : Int) (h : isInt64 n) :
    parseDecimal (fmtInteger n) = some n := by
  have hdata := fmtInteger_data n h
  have hdig := fmtDigits_isDigit 20 n.natAbs
  have hne := fmtDigits_ne_nil 20 n.natAbs
  have hval : digitsValue (fmtDigits 20 n.natAbs) = n.natAbs := by
    apply fmtDigits_value
    have := h.1
    have := h.2
    omega
  have hall : (fmtDigits 20 n.natAbs).all Char.isDigit = true := by
    simpa [List.all_eq_true] using hdig
  have hemp : (fmtDigits 20 n.natAbs).isEmpty = false := by
    cases hds : fmtDigits 20 n.natAbs with
    | nil => exact absurd hds hne
    | cons d ds => rfl
  unfold parseDecimal
  by_cases hneg : n < 0
  · rw [hdata]
    simp only [hneg, if_true, List.singleton_append, List.head?_cons, beq_self_eq_true,
      List.tail_cons, hall, hemp, hval, Bool.not_false, Bool.and_self]
    simp only [if_true, Option.some.injEq]
    omega
  · rw [hdata]
    simp only [hneg, if_false, List.nil_append]
    have hhead : ((fmtDigits 20 n.natAbs).head? == some '-') = false := by
      cases hds : fmtDigits 20 n.natAbs with
      | nil => exact absurd hds hne
      | cons d ds =>
        have hd : d.isDigit = true := hdig d (by rw [hds]; exact List.mem_cons_self _ _)
        have : d ≠ '-' := by
          intro hc
          rw [hc] at hd
          exact absurd hd (by decide)
        simpa using this
    simp only [hhead, Bool.false_eq_true, if_false]
    simp only [hall, hemp, hval, Bool.not_false, Bool.and_self, if_true, Option.some.injEq]
    omega

/-- For a record of supported fields `CreateQuery` returns the statement of
the specification. -/
theorem CreateQuery_eq_specStatement (T : String) (fields : List Field)
    (h : ∀ f ∈ fields, Supported f.2) :
    CreateQuery (.struct T fields) = .ok (specStatement T fields, none) := by
  rw [CreateQuery_struct, renderFrom_supported fields 0 _ h, joinFrom_zero]
  simp [specStatement, String.append_assoc]

theorem map_literal_split (pre post : List Field) (f : Field) :
    (pre ++ f :: post).map (fun g => specLiteral g.2)
      = pre.map (fun g => specLiteral g.2) ++ specLiteral f.2 :: post.map (fun g => specLiteral g.2) := by
  simp

theorem supported_split (pre post : List Field) (f : Field) (hf : Supported f.2)
    (hpre : ∀ g ∈ pre, Supported g.2) (hpost : ∀ g ∈ post, Supported g.2) :
    ∀ g ∈ pre ++ f :: post, Supported g.2 := by
  intro g hg
  rcases List.mem_append.mp hg with hg | hg
  · exact hpre g hg
  · rcases List.mem_cons.mp hg with rfl | hg
    · exact hf
    · exact hpost g hg

theorem sized_not_supported (v : Value) (h : isSizedIntKind v.Kind = true) : ¬ Supported v := by
  cases v <;> simp [isSizedIntKind, Value.Kind, Supported] at h ⊢

/-! ## Lemmas: memory and the mutation routines -/

theorem get?_append_length (m : Memory) (z : Value) : (m ++ [z]).get? m.length = some z := by
  induction m with
  | nil => rfl
  | cons v m ih => exact ih

theorem set_append_length (m : Memory) (z x : Value) : (m ++ [z]).set m.length x = m ++ [x] := by
  induction m with
  | nil => rfl
  | cons v m ih => exact congrArg (List.cons v) ih

theorem get?_append_left (m l : Memory) (a : Nat) (v : Value) (h : m.get? a = some v) :
    (m ++ l).get? a = some v := by
  induction m generalizing a with
  | nil => cases h
  | cons w m ih =>
    cases a with
    | zero => simpa using h
    | succ a => simpa using ih a (by simpa using h)

theorem get?_lt_length (m : Memory) (a : Nat) (v : Value) (h : m.get? a = some v) :
    a < m.length := by
  induction m generalizing a with
  | nil => cases h
  | cons w m ih =>
    cases a with
    | zero => simp
    | succ a => simpa using ih a (by simpa using h)

theorem get?_set_same (m : Memory) (a : Nat) (old x : Value) (h : m.get? a = some old) :
    (m.set a x).get? a = some x := by
  induction m generalizing a with
  | nil => cases h
  | cons w m ih =>
    cases a with
    | zero => rfl
    | succ a => simpa using ih a (by simpa using h)

theorem get?_set_other (m : Memory) (a b : Nat) (x : Value) (h : b ≠ a) :
    (m.set a x).get? b = m.get? b := by
  induction m generalizing a b with
  | nil => rfl
  | cons w m ih =>
    cases a with
    | zero =>
      cases b with
      | zero => exact absurd rfl h
      | succ b => rfl
    | succ a =>
      cases b with
      | zero => rfl
      | succ b => simpa using ih a b (by omega)

theorem assignable_Person (name name' : String) (age age' : Int) :
    assignable (Person name age) (Person name' age') = true := by
  simp [assignable, Person, TypeOf, typeNameOf, Value.Kind]

/-- Setting the variable behind a pointer into the memory. -/
theorem Set_var (m : Memory) (a : Nat) (old x : Value) (h : m.get? a = some old)
    (hx : assignable x old = true) :
    (RValue.var a).Set x m = .ok (m.set a x) := by
  simp only [RValue.Set, h, hx, if_true]

theorem safeModify_ref (m : Memory) (a : Nat) (name : String) (age : Int)
    (h : m.get? a = some (Person name age)) :
    safeModify (.ref a) m = .ok (m.set a (Person "Will" 54)) := by
  simp [safeModify, Data.TypeOf, RType.Kind, Data.ValueOf, RValue.Elem, ValueOf,
    Set_var m a _ _ h (assignable_Person _ _ _ _)]

theorem safeModify_copy (m : Memory) (name : String) (age : Int) :
    safeModify (.copy (Person name age)) m = .ok m := by
  simp [safeModify, Data.TypeOf, RType.Kind, Person, TypeOf, Value.Kind]

@[simp] theorem Proc.bind_apply {α β : Type} (p : Proc α) (f : α → Proc β) (m : Memory) :
    (p >>= f) m = Proc.bind p f m := rfl

/-- On a copy of a Person, `modify` panics in `Elem`, with the text Go gives
for a struct, and the memory is the one it was entered with. -/
theorem modify_copy (m : Memory) (name : String) (age : Int) :
    modify (.copy (Person name age)) m
      = (m, .panic "reflect: call of reflect.Value.Elem on struct Value") := by
  have hElem : RValue.Elem m (.of (.copy (Person name age)))
      = .panic "reflect: call of reflect.Value.Elem on struct Value" := rfl
  simp only [modify, Data.ValueOf, Proc.bind_apply, Proc.bind, Proc.reading, hElem]

/-- Through a pointer to a variable that holds a Person, `modify` returns and
leaves the variable holding `Person{"Will", 54}`. -/
theorem modify_ref (m : Memory) (a : Nat) (name : String) (age : Int)
    (h : m.get? a = some (Person name age)) :
    modify (.ref a) m = (m.set a (Person "Will" 54), .ok ()) := by
  have hElem : RValue.Elem m (.of (.ref a)) = .ok (.var a) := rfl
  simp only [modify, Data.ValueOf, Proc.bind_apply, Proc.bind, Proc.reading, Proc.writing,
    hElem, ValueOf, Set_var m a _ _ h (assignable_Person _ _ _ _)]

/-! ## Lemmas: reading a statement back -/

/-- Two texts that stop at the first character outside a class are equal when
what they start is equal: the class-only prefixes agree, and so do the
remainders. -/
theorem append_inj_of_stop (P : Char → Prop) :
    ∀ (a b x y : List Char), (∀ c ∈ a, P c) → (∀ c ∈ b, P c) →
      (∃ c t, x = c :: t ∧ ¬ P c) → (∃ c t, y = c :: t ∧ ¬ P c) →
      a ++ x = b ++ y → a = b ∧ x = y := by
  intro a
  induction a with
  | nil =>
    intro b x y _ hb hx hy h
    cases b with
    | nil => exact ⟨rfl, by simpa using h⟩
    | cons d b =>
      obtain ⟨c, t, rfl, hc⟩ := hx
      simp only [List.nil_append, List.cons_append, List.cons.injEq] at h
      exact absurd (hb d (List.mem_cons_self _ _)) (h.1 ▸ hc)
  | cons e a ih =>
    intro b x y ha hb hx hy h
    cases b with
    | nil =>
      obtain ⟨c, t, rfl, hc⟩ := hy
      simp only [List.nil_append, List.cons_append, List.cons.injEq] at h
      exact absurd (ha e (List.mem_cons_self _ _)) (h.1 ▸ hc)
    | cons d b =>
      simp only [List.cons_append, List.cons.injEq] at h
      obtain ⟨hab, hxy⟩ := ih b x y (fun c hc => ha c (List.mem_cons_of_mem _ hc))
        (fun c hc => hb c (List.mem_cons_of_mem _ hc)) hx hy h.2
      exact ⟨by rw [h.1, hab], hxy⟩

theorem joinFrom_data_cons (i : Nat) (f : Field) (rest : List Field) :
    (joinFrom i (f :: rest)).data
      = (sepAt i).data ++ ((specLiteral f.2).data ++ (joinFrom (i + 1) rest).data) := by
  simp [joinFrom, String.data_append]

/-- What follows a literal in the statement starts with a comma or with the
closing parenthesis. -/
theorem after_literal_head (i : Nat) (rest : List Field) :
    ∃ c t, (joinFrom (i + 1) rest).data ++ [')'] = c :: t ∧ (c = ',' ∨ c = ')') := by
  cases rest with
  | nil => exact ⟨')', [], rfl, Or.inr rfl⟩
  | cons f rest =>
    refine ⟨',', ' ' :: ((specLiteral f.2).data ++ (joinFrom (i + 1 + 1) rest).data) ++ [')'],
      ?_, Or.inl rfl⟩
    rw [joinFrom_data_cons]
    simp [sepAt]

theorem fmtInteger_chars (n : Int) (h : isInt64 n) :
    ∀ c ∈ (fmtInteger n).data, c.isDigit = true ∨ c = '-' := by
  intro c hc
  rw [fmtInteger_data n h] at hc
  rcases List.mem_append.mp hc with hc | hc
  · split at hc
    · exact Or.inr (List.mem_singleton.mp hc)
    · cases hc
  · exact Or.inl (fmtDigits_isDigit 20 _ c hc)

theorem fmtInteger_injective (n₁ n₂ : Int) (h₁ : isInt64 n₁) (h₂ : isInt64 n₂)
    (h : (fmtInteger n₁).data = (fmtInteger n₂).data) : n₁ = n₂ := by
  have hs : fmtInteger n₁ = fmtInteger n₂ := String.ext h
  have hp := parseDecimal_fmtInteger n₁ h₁
  rw [hs, parseDecimal_fmtInteger n₂ h₂] at hp
  exact (Option.some.inj hp).symm

/-- The text of the values list, up to the closing parenthesis, determines
the fields of a record of a given shape, when no String field holds a double
quote and the Int fields hold int64 values. -/
theorem joinFrom_injective :
    ∀ (fs₁ fs₂ : List Field) (i : Nat),
      fs₁.map (fun f => (f.1, f.2.Kind)) = fs₂.map (fun f => (f.1, f.2.Kind)) →
      (∀ f ∈ fs₁, Supported f.2) →
      (∀ name s, (name, Value.str s) ∈ fs₁ → '"' ∉ s.data) →
      (∀ name s, (name, Value.str s) ∈ fs₂ → '"' ∉ s.data) →
      (∀ name n, (name, Value.int n) ∈ fs₁ → isInt64 n) →
      (∀ name n, (name, Value.int n) ∈ fs₂ → isInt64 n) →
      (joinFrom i fs₁).data ++ [')'] = (joinFrom i fs₂).data ++ [')'] → fs₁ = fs₂ := by
  intro fs₁
  induction fs₁ with
  | nil =>
    intro fs₂ i hshape _ _ _ _ _ _
    cases fs₂ with
    | nil => rfl
    | cons f₂ r₂ => simp at hshape
  | cons f₁ r₁ ih =>
    intro fs₂ i hshape hs hq₁ hq₂ hi₁ hi₂ h
    cases fs₂ with
    | nil => simp at hshape
    | cons f₂ r₂ =>
      obtain ⟨name₁, v₁⟩ := f₁
      obtain ⟨name₂, v₂⟩ := f₂
      simp only [List.map_cons, List.cons.injEq, Prod.mk.injEq] at hshape
      obtain ⟨⟨hname, hkind⟩, hrest⟩ := hshape
      subst hname
      rw [joinFrom_data_cons, joinFrom_data_cons] at h
      simp only [List.append_assoc] at h
      have hlits := List.append_cancel_left h
      obtain ⟨c₁, t₁, hx₁, hc₁⟩ := after_literal_head i r₁
      obtain ⟨c₂, t₂, hx₂, hc₂⟩ := after_literal_head i r₂
      have hrec : (joinFrom (i + 1) r₁).data ++ [')'] = (joinFrom (i + 1) r₂).data ++ [')'] →
          r₁ = r₂ :=
        ih r₂ (i + 1) hrest (fun f hf => hs f (List.mem_cons_of_mem _ hf))
          (fun name s hm => hq₁ name s (List.mem_cons_of_mem _ hm))
          (fun name s hm => hq₂ name s (List.mem_cons_of_mem _ hm))
          (fun name n hm => hi₁ name n (List.mem_cons_of_mem _ hm))
          (fun name n hm => hi₂ name n (List.mem_cons_of_mem _ hm))
      have hs₁ : Supported v₁ := hs _ (List.mem_cons_self _ _)
      have hs₂ : Supported v₂ := by
        unfold Supported at hs₁ ⊢
        simpa only [← hkind] using hs₁
      have hd : ∀ s : String, (specLiteral (.str s)).data = '"' :: (s.data ++ ['"']) := by
        intro s
        simp [specLiteral, String.data_append]
      rcases supported_cases v₁ hs₁ with ⟨n₁, rfl⟩ | ⟨s₁, rfl⟩
      · rcases supported_cases v₂ hs₂ with ⟨n₂, rfl⟩ | ⟨s₂, rfl⟩
        · have hn₁ := hi₁ name₁ n₁ (List.mem_cons_self _ _)
          have hn₂ := hi₂ name₁ n₂ (List.mem_cons_self _ _)
          have hstop : ∀ c : Char, c = ',' ∨ c = ')' → ¬ (c.isDigit = true ∨ c = '-') := by
            intro c hc
            rcases hc with rfl | rfl <;> decide
          obtain ⟨hlit, htail⟩ := append_inj_of_stop (fun c => c.isDigit = true ∨ c = '-')
            (fmtInteger n₁).data (fmtInteger n₂).data _ _
            (fmtInteger_chars n₁ hn₁) (fmtInteger_chars n₂ hn₂)
            ⟨c₁, t₁, hx₁, hstop c₁ hc₁⟩ ⟨c₂, t₂, hx₂, hstop c₂ hc₂⟩ hlits
          rw [fmtInteger_injective n₁ n₂ hn₁ hn₂ hlit, hrec htail]
        · simp [Value.Kind] at hkind
      · rcases supported_cases v₂ hs₂ with ⟨n₂, rfl⟩ | ⟨s₂, rfl⟩
        · simp [Value.Kind] at hkind
        · rw [hd, hd] at hlits
          simp only [List.cons_append, List.append_assoc, List.singleton_append,
            List.cons.injEq, true_and] at hlits
          obtain ⟨hlit, htail⟩ := append_inj_of_stop (fun c => c ≠ '"') s₁.data s₂.data _ _
            (fun c hc hq => hq₁ name₁ s₁ (List.mem_cons_self _ _) (hq ▸ hc))
            (fun c hc hq => hq₂ name₁ s₂ (List.mem_cons_self _ _) (hq ▸ hc))
            ⟨'"', _, rfl, fun hne => hne rfl⟩ ⟨'"', _, rfl, fun hne => hne rfl⟩ hlits
          have hs₁₂ : s₁ = s₂ := String.ext hlit
          rw [hs₁₂, hrec (List.cons.inj htail).2]

/-! ## Claims -/

/-- C1. For every struct value whose fields are all of kind Int or String,
`CreateQuery` returns a nil error and exactly the string
`"insert into " + <type name> + " values(" + L + ")"`, where `L` is the
literals of all the fields, in declaration order, joined with `", "`. -/
theorem C1_CreateQuery_supported (T : String) (fields : List Field)
    (h : ∀ f ∈ fields, Supported f.2) :
    CreateQuery (.struct T fields) = .ok (specStatement T fields, none) :=
  CreateQuery_eq_specStatement T fields h

set_option maxRecDepth 100000 in
/-- C1, at the two records of the package's test: `Employee{12, "Tom",
"Technical Leader", "South Africa", 23401910}` and `Person{"Samantha", 29}`
give the statements the test expects. -/
theorem C1_CreateQuery_supported_witness :
    (∀ f ∈ [("ID", Value.int 12), ("Name", Value.str "Tom"),
        ("Position", Value.str "Technical Leader"), ("Country", Value.str "South Africa"),
        ("Salary", Value.int 23401910)], Supported f.2)
    ∧ CreateQuery (Employee 12 "Tom" "Technical Leader" "South Africa" 23401910)
        = .ok ("insert into Employee values(12, \"Tom\", \"Technical Leader\", \"South Africa\", 23401910)", none)
    ∧ (∀ f ∈ [("Name", Value.str "Samantha"), ("Age", Value.int 29)], Supported f.2)
    ∧ CreateQuery (Person "Samantha" 29)
        = .ok ("insert into Person values(\"Samantha\", 29)", none) :=
  ⟨by decide,
   (C1_CreateQuery_supported "Employee" _ (by decide)).trans (by decide),
   by decide,
   (C1_CreateQuery_supported "Person" _ (by decide)).trans (by decide)⟩

/-- C2. For every struct value with at least one field whose kind is neither
Int nor String, at any position and whatever the other fields are,
`CreateQuery` returns a non-nil error and the empty string: nothing of the
statement built from the preceding fields is returned. -/
theorem C2_CreateQuery_unsupported_field (T : String) (fields : List Field)
    (h : ∃ f ∈ fields, ¬ Supported f.2) :
    CreateQuery (.struct T fields) = .ok ("", some (errors.New "unsupported type")) := by
  rw [CreateQuery_struct, renderFrom_unsupported fields 0 _ h]

/-- C2, at a record whose unsupported field (a bool) stands last, after an Int
and a String field. -/
theorem C2_CreateQuery_unsupported_field_witness :
    (∃ f ∈ [("ID", Value.int 7), ("Name", Value.str "Ann"), ("Active", Value.bool true)],
        ¬ Supported f.2)
    ∧ CreateQuery (.struct "Account"
          [("ID", Value.int 7), ("Name", Value.str "Ann"), ("Active", Value.bool true)])
        = .ok ("", some (errors.New "unsupported type")) :=
  ⟨by decide, C2_CreateQuery_unsupported_field "Account" _ (by decide)⟩

/-- C4. For every input whose reflected kind is not struct (an int, a string, a
bool, a slice, a map, the nil interface value, ...), `CreateQuery` returns the
empty string and a non-nil error, as a returned value and not by panicking. -/
theorem C4_CreateQuery_not_struct (q : Value) (h : q.Kind ≠ Reflection.Kind.Struct) :
    CreateQuery q = .ok ("", some (errors.New "unsupported type"))
      ∧ (∀ msg, CreateQuery q ≠ .panic msg) := by
  rw [CreateQuery_not_struct q h]
  exact ⟨rfl, fun msg hc => by cases hc⟩

/-- C4, at the nil interface value. -/
theorem C4_CreateQuery_not_struct_witness :
    Value.nil.Kind ≠ Reflection.Kind.Struct
    ∧ CreateQuery Value.nil = .ok ("", some (errors.New "unsupported type"))
    ∧ (∀ msg, CreateQuery Value.nil ≠ .panic msg) :=
  ⟨by decide, C4_CreateQuery_not_struct Value.nil (by decide)⟩

/-- C5. For every Int field value `n` (an int64), at any position of a record
of supported fields, the literal `CreateQuery` emits for that field is the
canonical base-10 representation of `n`: only decimal digits, no leading zeros
(a single `0` for zero), preceded by `-` exactly when `n` is negative and
never by `+`, with no quotes; reading it back as a decimal integer gives
`n`. -/
theorem C5_int_literal_canonical (T : String) (pre post : List Field) (name : String)
    (n : Int) (hn : isInt64 n)
    (hpre : ∀ f ∈ pre, Supported f.2) (hpost : ∀ f ∈ post, Supported f.2) :
    CreateQuery (.struct T (pre ++ (name, .int n) :: post))
        = .ok ("insert into " ++ T ++ " values("
            ++ ", ".intercalate (pre.map (fun f => specLiteral f.2)
                ++ fmtInteger n :: post.map (fun f => specLiteral f.2))
            ++ ")", none)
    ∧ (∃ ds : List Char,
        (fmtInteger n).data = (if n < 0 then ['-'] else []) ++ ds
        ∧ ds ≠ [] ∧ (∀ c ∈ ds, c.isDigit = true)
        ∧ (n = 0 → ds = ['0']) ∧ (n ≠ 0 → ds.head? ≠ some '0')
        ∧ digitsValue ds = n.natAbs)
    ∧ '+' ∉ (fmtInteger n).data ∧ '"' ∉ (fmtInteger n).data
    ∧ parseDecimal (fmtInteger n) = some n := by
  have hdata := fmtInteger_data n hn
  have hdig := fmtDigits_isDigit 20 n.natAbs
  have hlt : n.natAbs < 10 ^ (20 + 1) := by
    have := hn.1
    have := hn.2
    omega
  have hnot : ∀ c : Char, c.isDigit = false → c ≠ '-' → c ∉ (fmtInteger n).data := by
    intro c hc hm hmem
    rw [hdata] at hmem
    rcases List.mem_append.mp hmem with hmem | hmem
    · split at hmem
      · exact hm (List.mem_singleton.mp hmem)
      · cases hmem
    · rw [hdig c hmem] at hc
      cases hc
  refine ⟨?_, ⟨fmtDigits 20 n.natAbs, hdata, fmtDigits_ne_nil _ _, hdig, ?_, ?_,
    fmtDigits_value 20 _ hlt⟩, hnot '+' (by decide) (by decide), hnot '"' (by decide) (by decide),
    parseDecimal_fmtInteger n hn⟩
  · rw [CreateQuery_eq_specStatement T _
      (supported_split pre post (name, .int n) (Or.inl rfl) hpre hpost)]
    simp only [specStatement, map_literal_split]
    rfl
  · intro h0
    exact (fmtDigits_head 20 _ hlt).1 (by omega)
  · intro h0
    exact (fmtDigits_head 20 _ hlt).2 (by omega)

set_option maxRecDepth 100000 in
/-- C5, at the least int64, in second position after a String field. -/
theorem C5_int_literal_canonical_witness :
    isInt64 (-9223372036854775808)
    ∧ (∀ f ∈ [("Name", Value.str "x")], Supported f.2)
    ∧ (∀ f ∈ ([] : List Field), Supported f.2)
    ∧ CreateQuery (.struct "Sample" [("Name", .str "x"), ("Low", .int (-9223372036854775808))])
        = .ok ("insert into Sample values(\"x\", -9223372036854775808)", none)
    ∧ parseDecimal (fmtInteger (-9223372036854775808)) = some (-9223372036854775808) :=
  ⟨by decide, by decide, by decide,
   (C5_int_literal_canonical "Sample" [("Name", .str "x")] [] "Low" (-9223372036854775808)
      (by decide) (by decide) (by decide)).1.trans (by decide),
   (C5_int_literal_canonical "Sample" [("Name", .str "x")] [] "Low" (-9223372036854775808)
      (by decide) (by decide) (by decide)).2.2.2.2⟩

/-- C6. For every String field value `s`, at any position of a record of
supported fields, the literal `CreateQuery` emits for that field is one double
quote, then `s` unchanged character for character, then one double quote. -/
theorem C6_string_literal_verbatim (T : String) (pre post : List Field) (name : String)
    (s : String)
    (hpre : ∀ f ∈ pre, Supported f.2) (hpost : ∀ f ∈ post, Supported f.2) :
    ∃ lit : String,
      CreateQuery (.struct T (pre ++ (name, .str s) :: post))
          = .ok ("insert into " ++ T ++ " values("
              ++ ", ".intercalate (pre.map (fun f => specLiteral f.2)
                  ++ lit :: post.map (fun f => specLiteral f.2))
              ++ ")", none)
      ∧ lit.data = '"' :: (s.data ++ ['"']) := by
  refine ⟨"\"" ++ s ++ "\"", ?_, by simp [String.data_append]⟩
  rw [CreateQuery_eq_specStatement T _
    (supported_split pre post (name, .str s) (Or.inr rfl) hpre hpost)]
  simp only [specStatement, map_literal_split]
  rfl

set_option maxRecDepth 100000 in
/-- C6, at a string with a double quote, a backslash, a comma and parentheses,
between an Int field and an empty String field. -/
theorem C6_string_literal_verbatim_witness :
    (∀ f ∈ [("ID", Value.int 1)], Supported f.2)
    ∧ (∀ f ∈ [("Note", Value.str "")], Supported f.2)
    ∧ ∃ lit : String,
        CreateQuery (.struct "Sample"
            ([("ID", Value.int 1)] ++ ("Text", .str "a\"b\\c, (d)") :: [("Note", Value.str "")]))
          = .ok ("insert into Sample values("
              ++ ", ".intercalate (([("ID", Value.int 1)] : List Field).map (fun f => specLiteral f.2)
                  ++ lit :: ([("Note", Value.str "")] : List Field).map (fun f => specLiteral f.2))
              ++ ")", none)
        ∧ lit.data = '"' :: ("a\"b\\c, (d)".data ++ ['"']) :=
  ⟨by decide, by decide,
   C6_string_literal_verbatim "Sample" [("ID", .int 1)] [("Note", .str "")] "Text"
     "a\"b\\c, (d)" (by decide) (by decide)⟩

/-- C7, refuted. The error for a struct with an unsupported field (a bool
field named `Active`) is the very error returned for an input that is not a
struct (the int 5), and the very error returned when the offending field has
another name and kind (`Balance`, a float64): its only content is the message
`unsupported type`, which names no field. -/
theorem C7_error_not_distinguishable_counterexample :
    CreateQuery (.struct "Account" [("ID", .int 7), ("Active", .bool true)])
        = .ok ("", some { msg := "unsupported type" })
    ∧ CreateQuery (.int 5) = .ok ("", some { msg := "unsupported type" })
    ∧ CreateQuery (.struct "Account" [("ID", .int 7), ("Balance", .float64 0)])
        = .ok ("", some { msg := "unsupported type" }) := by
  decide

/-- C7, amended. The error `CreateQuery` returns for a struct with an
unsupported field kind carries the message `unsupported type` and nothing
else: it does not depend on the name of the offending field, and it is equal
to the error returned when the input is not a struct at all. -/
theorem C7_error_same_message (T : String) (fields : List Field)
    (h : ∃ f ∈ fields, ¬ Supported f.2) (q : Value) (hq : q.Kind ≠ Reflection.Kind.Struct) :
    ∃ err : GoError, CreateQuery (.struct T fields) = .ok ("", some err)
      ∧ CreateQuery q = .ok ("", some err)
      ∧ err.msg = "unsupported type" := by
  refine ⟨errors.New "unsupported type", ?_, CreateQuery_not_struct q hq, rfl⟩
  rw [CreateQuery_struct, renderFrom_unsupported fields 0 _ h]

/-- C7 amended, at a struct whose second field is a bool and at the input 5. -/
theorem C7_error_same_message_witness :
    (∃ f ∈ [("ID", Value.int 7), ("Active", Value.bool true)], ¬ Supported f.2)
    ∧ (Value.int 5).Kind ≠ Reflection.Kind.Struct
    ∧ ∃ err : GoError,
        CreateQuery (.struct "Account" [("ID", Value.int 7), ("Active", Value.bool true)])
          = .ok ("", some err)
        ∧ CreateQuery (Value.int 5) = .ok ("", some err)
        ∧ err.msg = "unsupported type" :=
  ⟨by decide, by decide,
   C7_error_same_message "Account" _ (by decide) (Value.int 5) (by decide)⟩

/-- C8, refuted. A struct whose only field is an int64 is rejected: the switch
has a case for `reflect.Int` alone. -/
theorem C8_sized_int_rejected_counterexample :
    CreateQuery (.struct "Sample" [("Total", .int64 5)])
      = .ok ("", some { msg := "unsupported type" }) := by
  decide

/-- C8, amended. Only the platform `int` kind is classified as Integer: for
every struct whose fields are of kind Int or String, `CreateQuery` succeeds
and renders each Int field as `%d` writes it; a struct with a field of any
other integer-family kind (int8, int16, int32, int64, uint, uint8, uint16,
uint32, uint64, uintptr) gets the empty string and the error. -/
theorem C8_only_platform_int (T : String) (fields : List Field)
    (h : ∀ f ∈ fields, Supported f.2)
    (T' : String) (fields' : List Field)
    (h' : ∃ f ∈ fields', isSizedIntKind f.2.Kind = true) :
    CreateQuery (.struct T fields) = .ok (specStatement T fields, none)
      ∧ (∀ name n, (name, Value.int n) ∈ fields →
          fmtInteger n ∈ fields.map (fun f => specLiteral f.2))
      ∧ CreateQuery (.struct T' fields') = .ok ("", some (errors.New "unsupported type")) := by
  refine ⟨CreateQuery_eq_specStatement T fields h, ?_, ?_⟩
  · intro name n hmem
    exact List.mem_map.mpr ⟨(name, Value.int n), hmem, rfl⟩
  · obtain ⟨f, hf, hk⟩ := h'
    rw [CreateQuery_struct,
      renderFrom_unsupported fields' 0 _ ⟨f, hf, sized_not_supported f.2 hk⟩]

/-- C8 amended, at `Person{"Samantha", 29}` and at a struct with a uint64
field after a String field. -/
theorem C8_only_platform_int_witness :
    (∀ f ∈ [("Name", Value.str "Samantha"), ("Age", Value.int 29)], Supported f.2)
    ∧ (∃ f ∈ [("Name", Value.str "x"), ("Count", Value.uint64 3)],
        isSizedIntKind f.2.Kind = true)
    ∧ CreateQuery (.struct "Person" [("Name", Value.str "Samantha"), ("Age", Value.int 29)])
        = .ok (specStatement "Person" [("Name", Value.str "Samantha"), ("Age", Value.int 29)],
            none)
    ∧ (∀ name n, (name, Value.int n) ∈ [("Name", Value.str "Samantha"), ("Age", Value.int 29)] →
          fmtInteger n ∈ ([("Name", Value.str "Samantha"), ("Age", Value.int 29)] : List Field).map
            (fun f => specLiteral f.2))
    ∧ CreateQuery (.struct "Sample" [("Name", Value.str "x"), ("Count", Value.uint64 3)])
        = .ok ("", some (errors.New "unsupported type")) :=
  ⟨by decide, by decide,
   C8_only_platform_int "Person" _ (by decide) "Sample" _ (by decide)⟩

set_option maxRecDepth 100000 in
/-- C9, refuted. `Person{"Samantha", 29}` renders, a pointer to it does not:
the kind of a pointer is not `Struct`. -/
theorem C9_pointer_rejected_counterexample :
    CreateQuery (Person "Samantha" 29)
        = .ok ("insert into Person values(\"Samantha\", 29)", none)
    ∧ CreateQuery (.ptr (some (Person "Samantha" 29)))
        = .ok ("", some { msg := "unsupported type" }) := by
  decide

/-- C9, amended. The record must be supplied by value: for every flat record
`r` of Int/String fields, `CreateQuery` given `r` itself succeeds, and
`CreateQuery` given a pointer to `r` returns the empty string and the error
`unsupported type`. -/
theorem C9_by_value_only (T : String) (fields : List Field)
    (h : ∀ f ∈ fields, Supported f.2) :
    CreateQuery (.struct T fields) = .ok (specStatement T fields, none)
      ∧ CreateQuery (.ptr (some (.struct T fields)))
          = .ok ("", some (errors.New "unsupported type")) :=
  ⟨CreateQuery_eq_specStatement T fields h,
   CreateQuery_not_struct _ (by simp [Value.Kind])⟩

/-- C9 amended, at `Employee{12, "Tom", "Technical Leader", "South Africa",
23401910}`. -/
theorem C9_by_value_only_witness :
    (∀ f ∈ [("ID", Value.int 12), ("Name", Value.str "Tom"),
        ("Position", Value.str "Technical Leader"), ("Country", Value.str "South Africa"),
        ("Salary", Value.int 23401910)], Supported f.2)
    ∧ CreateQuery (.struct "Employee" [("ID", Value.int 12), ("Name", Value.str "Tom"),
          ("Position", Value.str "Technical Leader"), ("Country", Value.str "South Africa"),
          ("Salary", Value.int 23401910)])
        = .ok (specStatement "Employee" [("ID", Value.int 12), ("Name", Value.str "Tom"),
          ("Position", Value.str "Technical Leader"), ("Country", Value.str "South Africa"),
          ("Salary", Value.int 23401910)], none)
    ∧ CreateQuery (.ptr (some (.struct "Employee" [("ID", Value.int 12), ("Name", Value.str "Tom"),
          ("Position", Value.str "Technical Leader"), ("Country", Value.str "South Africa"),
          ("Salary", Value.int 23401910)])))
        = .ok ("", some (errors.New "unsupported type")) :=
  ⟨by decide, C9_by_value_only "Employee" _ (by decide)⟩

set_option maxRecDepth 100000 in
/-- C10, refuted. For a struct type with no fields `CreateQuery` returns a nil
error and the statement with an empty values list. -/
theorem C10_empty_struct_counterexample :
    CreateQuery (.struct "Empty" []) = .ok ("insert into Empty values()", none) := by
  decide

/-- C10, amended. A record with no fields is not an error condition: for every
struct type with zero fields, `CreateQuery` returns a nil error and the
statement `insert into <name> values()`. -/
theorem C10_empty_struct_statement (T : String) :
    CreateQuery (.struct T []) = .ok ("insert into " ++ T ++ " values()", none) := by
  rw [CreateQuery_struct]
  simp only [renderFrom]
  congr 2
  apply String.ext
  simp [String.data_append]

/-- C11. For every Person value `p` held by a variable: `safeModify` given a
pointer to the variable leaves it equal to `{Will, 54}` (and every other
variable as it was); `safeModify` given `p` by value leaves the memory, and so
the original `p`, unchanged. -/
theorem C11_safeModify_frame (m : Memory) (a : Nat) (name : String) (age : Int)
    (h : m.get? a = some (Person name age)) :
    (∃ m', safeModify (.ref a) m = .ok m'
        ∧ m'.get? a = some (Person "Will" 54)
        ∧ ∀ b, b ≠ a → m'.get? b = m.get? b)
    ∧ safeModify (.copy (Person name age)) m = .ok m := by
  refine ⟨⟨m.set a (Person "Will" 54), safeModify_ref m a name age h,
    get?_set_same m a _ _ h, fun b hb => get?_set_other m a b _ hb⟩,
    safeModify_copy m name age⟩

/-- C11, at the record of `Test_SetNewValue`, `Person{"Bob", 35}`. -/
theorem C11_safeModify_frame_witness :
    ([Person "Bob" 35] : Memory).get? 0 = some (Person "Bob" 35)
    ∧ (∃ m', safeModify (.ref 0) [Person "Bob" 35] = .ok m'
        ∧ m'.get? 0 = some (Person "Will" 54)
        ∧ ∀ b, b ≠ 0 → m'.get? b = ([Person "Bob" 35] : Memory).get? b)
    ∧ safeModify (.copy (Person "Bob" 35)) [Person "Bob" 35] = .ok [Person "Bob" 35] :=
  ⟨rfl, C11_safeModify_frame [Person "Bob" 35] 0 "Bob" 35 rfl⟩

/-- C12, refuted. Applied to `Person{"Bob", 35}` by value, `modify` panics,
with Go's `reflect: call of reflect.Value.Elem on struct Value`, and
`safeModify` returns normally with the memory as it was: neither returns an
error, and neither has a result to return one in. -/
theorem C12_no_error_reported_counterexample :
    modify (.copy (Person "Bob" 35)) [Person "Bob" 35]
        = ([Person "Bob" 35], .panic "reflect: call of reflect.Value.Elem on struct Value")
    ∧ safeModify (.copy (Person "Bob" 35)) [Person "Bob" 35] = .ok [Person "Bob" 35] :=
  ⟨rfl, rfl⟩

/-- C12, amended. A mutation attempted on a non-addressable record is not
reported as an error: for every Person `p`, `modify` applied to `p` by value
panics (in `Elem`, before anything is written), and `safeModify` applied to
`p` by value returns normally, does nothing and reports nothing. In both cases
the memory, and so `p`, is left as it was. -/
theorem C12_modify_panics_safeModify_silent (m : Memory) (name : String) (age : Int) :
    modify (.copy (Person name age)) m
        = (m, .panic "reflect: call of reflect.Value.Elem on struct Value")
    ∧ safeModify (.copy (Person name age)) m = .ok m :=
  ⟨modify_copy m name age, safeModify_copy m name age⟩

/-- C13. `SumTwoWithReflection` is equivalent to `SumTwo`: for every int64
value `n` held by the pointed-to variable, each of the two leaves the variable
holding `n + 2` wrapped around as an int64 (and every other variable as it
was), so both leave the same memory. The wrapped sum is `n + 2` unless `n` is
within 2 of the maximum, where it is `n + 2 - 2^64`. -/
theorem C13_SumTwo_equivalent (m : Memory) (a : Nat) (n : Int)
    (h : m.get? a = some (.int64 n)) (hn : isInt64 n) :
    SumTwo a m = .ok (m.set a (.int64 (wrapInt64 (n + 2))))
    ∧ SumTwoWithReflection (.ref a) m = .ok (m.set a (.int64 (wrapInt64 (n + 2))))
    ∧ SumTwoWithReflection (.ref a) m = SumTwo a m
    ∧ (m.set a (.int64 (wrapInt64 (n + 2)))).get? a = some (.int64 (wrapInt64 (n + 2)))
    ∧ isInt64 (wrapInt64 (n + 2))
    ∧ (n + 2 < 2 ^ 63 → wrapInt64 (n + 2) = n + 2)
    ∧ (2 ^ 63 ≤ n + 2 → wrapInt64 (n + 2) = n + 2 - 2 ^ 64) := by
  have h1 : SumTwo a m = .ok (m.set a (.int64 (wrapInt64 (n + 2)))) := by
    simp only [SumTwo, h]
  have hassign : assignable (.int64 (wrapInt64 (n + 2))) (.int64 n) = true := by
    simp [assignable, TypeOf, typeNameOf, Value.Kind]
  have h2 : SumTwoWithReflection (.ref a) m = .ok (m.set a (.int64 (wrapInt64 (n + 2)))) := by
    simp only [SumTwoWithReflection, Data.ValueOf, RValue.Elem, Result.ok_bind, RValue.Int,
      RValue.load, h, Option.getD_some, Value.Int, ValueOf, Set_var m a _ _ h hassign]
  obtain ⟨hlo, hhi⟩ := hn
  refine ⟨h1, h2, h2.trans h1.symm, get?_set_same m a _ _ h, ?_, ?_, ?_⟩
  · unfold isInt64 wrapInt64
    constructor <;> omega
  · intro hlt
    unfold wrapInt64
    omega
  · intro hge
    unfold wrapInt64
    omega

/-- C13, at the two steps of `Test_SummingTwo_Timing`: 5 becomes 7 under
`SumTwo`, and 7 becomes 9 under `SumTwoWithReflection`. -/
theorem C13_SumTwo_equivalent_witness :
    ([Value.int64 5] : Memory).get? 0 = some (.int64 5) ∧ isInt64 5
    ∧ SumTwo 0 [.int64 5] = .ok [.int64 7]
    ∧ ([Value.int64 7] : Memory).get? 0 = some (.int64 7) ∧ isInt64 7
    ∧ SumTwoWithReflection (.ref 0) [.int64 7] = .ok [.int64 9] :=
  ⟨rfl, by decide,
   (C13_SumTwo_equivalent [.int64 5] 0 5 rfl (by decide)).1.trans rfl,
   rfl, by decide,
   (C13_SumTwo_equivalent [.int64 7] 0 7 rfl (by decide)).2.1.trans rfl⟩

/-- C14. Making a new instance from an existing pointer does not touch the
original: for every Person `p` behind the pointer passed to `create`, `create`
returns a pointer to a new variable, which holds `{Will, 54}`, and the
variable behind the original pointer still holds `p` afterwards. -/
theorem C14_create_frame (m : Memory) (a : Nat) (name : String) (age : Int)
    (h : m.get? a = some (Person name age)) :
    ∃ (b : Nat) (m' : Memory), create (.ref a) m = .ok (.ref b, m')
      ∧ b ≠ a ∧ m.get? b = none
      ∧ m'.get? b = some (Person "Will" 54)
      ∧ m'.get? a = some (Person name age)
      ∧ ∀ c v, m.get? c = some v → m'.get? c = some v := by
  have hlen := get?_lt_length m a _ h
  have hzero := get?_append_length m (zeroValue (Person name age))
  have hset : (RValue.var m.length).Set (Person "Will" 54) (m ++ [zeroValue (Person name age)])
      = .ok (m ++ [Person "Will" 54]) := by
    rw [Set_var _ _ _ _ hzero (by simp [assignable, Person, TypeOf, typeNameOf, Value.Kind,
      zeroValue]), set_append_length]
  refine ⟨m.length, m ++ [Person "Will" 54], ?_, by omega, ?_, get?_append_length m _,
    get?_append_left m _ a _ h, fun c v hc => get?_append_left m _ c v hc⟩
  · have hT : TypeOf (Person name age)
        = some { name := "Person", kind := Reflection.Kind.Struct } := rfl
    simp only [create, Data.ValueOf, RValue.Elem, Result.ok_bind, RValue.Type, RValue.load, h,
      Option.getD_some, New, ValueOf, hT, hset, RValue.Interface, Result.pure_def]
  · cases hnone : m.get? m.length with
    | none => rfl
    | some v => exact absurd (get?_lt_length m _ v hnone) (lt_irrefl _)

/-- C14, at the record of `Test_MakeNewInstance`, `&Person{"Bob", 35}`. -/
theorem C14_create_frame_witness :
    ([Person "Bob" 35] : Memory).get? 0 = some (Person "Bob" 35)
    ∧ ∃ (b : Nat) (m' : Memory), create (.ref 0) [Person "Bob" 35] = .ok (.ref b, m')
      ∧ b ≠ 0 ∧ ([Person "Bob" 35] : Memory).get? b = none
      ∧ m'.get? b = some (Person "Will" 54)
      ∧ m'.get? 0 = some (Person "Bob" 35)
      ∧ ∀ c v, ([Person "Bob" 35] : Memory).get? c = some v → m'.get? c = some v :=
  ⟨rfl, C14_create_frame [Person "Bob" 35] 0 "Bob" 35 rfl⟩

/-- C15. `CreateQuery` is injective on quote-free records of one shape: for
every two struct values of the same struct type (same name, same field names
and kinds) whose fields are all Int or String, the Int fields holding int64
values, and in which no String field contains a double-quote character, if
`CreateQuery` returns the same statement for both then they are equal field by
field. -/
theorem C15_CreateQuery_injective_quote_free (T : String) (fs₁ fs₂ : List Field)
    (hshape : shapeOf fs₁ = shapeOf fs₂)
    (hs : ∀ f ∈ fs₁, Supported f.2)
    (hq₁ : ∀ f ∈ fs₁, quoteFree f.2 = true) (hq₂ : ∀ f ∈ fs₂, quoteFree f.2 = true)
    (hi₁ : ∀ f ∈ fs₁, intInRange f.2 = true) (hi₂ : ∀ f ∈ fs₂, intInRange f.2 = true)
    (heq : CreateQuery (.struct T fs₁) = CreateQuery (.struct T fs₂)) :
    fs₁ = fs₂ := by
  have hs₂ : ∀ f ∈ fs₂, Supported f.2 := by
    intro f hf
    have hmem : (f.1, f.2.Kind) ∈ shapeOf fs₁ := by
      rw [hshape]
      exact List.mem_map.mpr ⟨f, hf, rfl⟩
    obtain ⟨g, hg, hgf⟩ := List.mem_map.mp hmem
    have hk : g.2.Kind = f.2.Kind := (Prod.mk.inj hgf).2
    have := hs g hg
    unfold Supported at this ⊢
    rwa [hk] at this
  rw [CreateQuery_eq_specStatement T fs₁ hs, CreateQuery_eq_specStatement T fs₂ hs₂] at heq
  have hstmt : specStatement T fs₁ = specStatement T fs₂ := by
    injection heq with h
    exact (Prod.mk.inj h).1
  have hdata := congrArg String.data hstmt
  simp only [specStatement, ← joinFrom_zero, String.data_append, List.append_assoc] at hdata
  have hjoin := List.append_cancel_left (List.append_cancel_left (List.append_cancel_left hdata))
  have hquote : ∀ fs : List Field, (∀ f ∈ fs, quoteFree f.2 = true) →
      ∀ name s, (name, Value.str s) ∈ fs → '"' ∉ s.data := by
    intro fs h name s hm
    have := h _ hm
    simpa [quoteFree] using this
  have hint : ∀ fs : List Field, (∀ f ∈ fs, intInRange f.2 = true) →
      ∀ name n, (name, Value.int n) ∈ fs → isInt64 n := by
    intro fs h name n hm
    have := h _ hm
    simpa [intInRange] using this
  exact joinFrom_injective fs₁ fs₂ 0 hshape hs (hquote fs₁ hq₁) (hquote fs₂ hq₂)
    (hint fs₁ hi₁) (hint fs₂ hi₂) hjoin

/-- C15, at the fields of `Person{"Samantha", 29}`, compared with
themselves. -/
theorem C15_CreateQuery_injective_quote_free_witness :
    shapeOf [("Name", Value.str "Samantha"), ("Age", Value.int 29)]
        = shapeOf [("Name", Value.str "Samantha"), ("Age", Value.int 29)]
    ∧ (∀ f ∈ [("Name", Value.str "Samantha"), ("Age", Value.int 29)], Supported f.2)
    ∧ (∀ f ∈ [("Name", Value.str "Samantha"), ("Age", Value.int 29)], quoteFree f.2 = true)
    ∧ (∀ f ∈ [("Name", Value.str "Samantha"), ("Age", Value.int 29)], intInRange f.2 = true)
    ∧ CreateQuery (.struct "Person" [("Name", Value.str "Samantha"), ("Age", Value.int 29)])
        = CreateQuery (.struct "Person" [("Name", Value.str "Samantha"), ("Age", Value.int 29)])
    ∧ ([("Name", Value.str "Samantha"), ("Age", Value.int 29)] : List Field)
        = [("Name", Value.str "Samantha"), ("Age", Value.int 29)] :=
  ⟨rfl, by decide, by decide, by decide, rfl,
   C15_CreateQuery_injective_quote_free "Person" _ _ rfl (by decide) (by decide) (by decide)
     (by decide) (by decide) rfl⟩

set_option maxRecDepth 100000 in
/-- C16. Because text is not escaped, `CreateQuery` is not injective in
general: the two different values ``{`a", "b`, `c`}`` and ``{`a`, `b", "c`}``
of one struct type with two String fields both succeed and return the
identical statement. -/
theorem C16_CreateQuery_not_injective :
    Value.struct "Pair" [("First", .str "a\", \"b"), ("Second", .str "c")]
        ≠ Value.struct "Pair" [("First", .str "a"), ("Second", .str "b\", \"c")]
    ∧ shapeOf [("First", .str "a\", \"b"), ("Second", .str "c")]
        = shapeOf [("First", .str "a"), ("Second", .str "b\", \"c")]
    ∧ CreateQuery (.struct "Pair" [("First", .str "a\", \"b"), ("Second", .str "c")])
        = .ok ("insert into Pair values(\"a\", \"b\", \"c\")", none)
    ∧ CreateQuery (.struct "Pair" [("First", .str "a"), ("Second", .str "b\", \"c")])
        = .ok ("insert into Pair values(\"a\", \"b\", \"c\")", none) := by
  refine ⟨?_, rfl, by decide, by decide⟩
  intro h
  injection h with _ hf
  injection hf with h1 _
  injection h1 with _ hv
  injection hv with hstr
  exact absurd hstr (by decide)

end Reflection
